import Mathlib

/-!
Shallow embedding of the awd-cli core (registry client, runtime manager and
the CLI install/run commands) together with proofs of the specified
properties.  Python strings are modelled by `String` (character lists),
Python dicts by ordered association lists, raised exceptions by `Except`,
and the file system / network by explicit state records whose fields give
the outcome of each primitive I/O operation.
-/

namespace AwdCli

/-! ## String helpers modelling Python `str` primitives -/

/-- Models Python `s.lower()` (ASCII case folding, as used on server names). -/
def pyLower (s : String) : String := ⟨s.data.map Char.toLower⟩

/-- Helper for `containsSub`: does `n` occur at the head of `h`? -/
def startsList : List Char → List Char → Bool
  | [], _ => true
  | _ :: _, [] => false
  | a :: as, b :: bs => a == b && startsList as bs

/-- Models Python `n in h` on strings: substring containment. -/
def containsSub (n : List Char) : List Char → Bool
  | [] => n.isEmpty
  | c :: cs => startsList n (c :: cs) || containsSub n cs

/-- Python `needle in hay` for strings. -/
def pyIn (needle hay : String) : Bool := containsSub needle.data hay.data

/-- Models Python `p.split('=', 1)` combined with the `'=' in p` test:
returns `some (before, after)` split at the first `'='`, or `none` when no
`'='` occurs. -/
def splitAtFirstEq : List Char → Option (List Char × List Char)
  | [] => none
  | c :: cs =>
    if c = '=' then some ([], cs)
    else
      match splitAtFirstEq cs with
      | some (a, b) => some (c :: a, b)
      | none => none

/-- Models Python `s.strip()` (whitespace removed from both ends). -/
def pyStrip (s : String) : String :=
  ⟨((s.data.dropWhile Char.isWhitespace).reverse.dropWhile Char.isWhitespace).reverse⟩

/-! ## Registry client (`src/awd_cli/registry/client.py`)

A server record is the parsed JSON object for one server; `.get` accesses
with a missing key are modelled by `Option` fields (`server["id"]` is a
plain access, so `sid` is total). -/

/-- One server metadata dictionary: `{"id": ..., "name": ..., "description": ...}`. -/
structure ServerRecord where
  /-- `server["id"]` -/
  sid : String
  /-- `server.get("name")` -/
  name? : Option String
  /-- `server.get("description")` -/
  descr? : Option String
deriving DecidableEq, Repr

/-- The observable registry: outcomes of the two HTTP endpoints.
`listPage limit cursor` is the parsed result of `GET /v0/servers` (the
server list of the returned page and its `next_cursor`); `infoOf sid` is
the outcome of `GET /v0/servers/{sid}` as surfaced by `get_server_info`
(`.error` covers both a raised `RequestException` and the `ValueError`
raised on an empty body). -/
structure RegistryState where
  listPage : Nat → Option String → Except Unit (List ServerRecord × Option String)
  infoOf : String → Except Unit ServerRecord

/-- `SimpleRegistryClient.list_servers(limit, cursor)`. -/
def list_servers (st : RegistryState) (limit : Nat) (cursor : Option String) :
    Except Unit (List ServerRecord × Option String) :=
  st.listPage limit cursor

/-- The filter of `search_servers`:
`query.lower() in server.get("name", "").lower() or query.lower() in server.get("description", "").lower()`. -/
def matchesQuery (query : String) (server : ServerRecord) : Bool :=
  pyIn (pyLower query) (pyLower (server.name?.getD "")) ||
  pyIn (pyLower query) (pyLower (server.descr?.getD ""))

/-- `SimpleRegistryClient.search_servers(query)`: one unpaginated
`list_servers()` call (defaults `limit=100`, `cursor=None`) followed by
client-side filtering. -/
def search_servers (st : RegistryState) (query : String) :
    Except Unit (List ServerRecord) :=
  match list_servers st 100 none with
  | .error e => .error e
  | .ok (servers, _) => .ok (servers.filter (matchesQuery query))

/-- Network actions taken by `find_server_by_reference`, in order. -/
inductive RegAction where
  /-- direct `get_server_info(reference)` call (strategy 1) -/
  | direct (ref : String)
  /-- the `list_servers()` call opening strategy 2 -/
  | listCall
  /-- `get_server_info(server["id"])` for a name-matched server -/
  | detail (sid : String)
deriving DecidableEq, Repr

/-- The UUID-shape test of strategy 1:
`len(reference) == 36 and reference.count('-') == 4`. -/
def uuidLike (ref : String) : Bool :=
  ref.length == 36 && ref.data.count '-' == 4

/-- The strategy-2 loop of `find_server_by_reference`: scan the listing for
an exact name match; on a match fetch its details, and on a raised fetch
(`except Exception: continue`) keep scanning the rest. -/
def scanByName (st : RegistryState) (ref : String) :
    List ServerRecord → List RegAction × Option ServerRecord
  | [] => ([], none)
  | s :: rest =>
    if s.name? = some ref then
      match st.infoOf s.sid with
      | .ok v => ([RegAction.detail s.sid], some v)
      | .error _ =>
        let (tr, r) := scanByName st ref rest
        (RegAction.detail s.sid :: tr, r)
    else scanByName st ref rest

/-- Strategy 2 of `find_server_by_reference`: `list_servers()` (whose
failure propagates) followed by the exact-name scan. -/
def namePhase (st : RegistryState) (ref : String) :
    List RegAction × Except Unit (Option ServerRecord) :=
  match list_servers st 100 none with
  | .error e => ([RegAction.listCall], .error e)
  | .ok (servers, _) =>
    let (tr, r) := scanByName st ref servers
    (RegAction.listCall :: tr, .ok r)

/-- `SimpleRegistryClient.find_server_by_reference(reference)`, returning
the ordered list of network actions together with the outcome.  Strategy 1
runs only when `uuidLike`; its `try/except (ValueError, Exception)` makes
any raise fall through to strategy 2. -/
def find_server_by_reference (st : RegistryState) (ref : String) :
    List RegAction × Except Unit (Option ServerRecord) :=
  if uuidLike ref then
    match st.infoOf ref with
    | .ok v => ([RegAction.direct ref], .ok (some v))
    | .error _ =>
      let (tr, r) := namePhase st ref
      (RegAction.direct ref :: tr, r)
  else namePhase st ref

/-! ## Runtime manager (`src/awd_cli/runtime/manager.py`)

The file system and PATH are modelled by `RuntimeState`: for a binary name
`b`, `managedExists b`, `managedIsFile b` and `execFile b` give
`(runtime_dir / b).exists()`, `(runtime_dir / b).is_file()` and whether
that path is an existing executable regular file; `whichFound b` gives
`shutil.which(b) is not None`; `versionRun b` gives the outcome of
`subprocess.run([path, "--version"], ...)` as `(returncode, stdout)`, with
`.error` for a raised exception (including the 5s timeout). -/

/-- One entry of `self.supported_runtimes`. -/
structure RuntimeInfo where
  script : String
  description : String
  binary : String
deriving DecidableEq, Repr

/-- `self.supported_runtimes` (an ordered dict, modelled as an ordered
association list). -/
def supported_runtimes : List (String × RuntimeInfo) :=
  [("codex",
    { script := "setup-codex.sh"
      description := "OpenAI Codex CLI with GitHub Models support"
      binary := "codex" }),
   ("llm",
    { script := "setup-llm.sh"
      description := "Simon Willison's LLM library with multiple providers"
      binary := "llm" })]

/-- The file-system / PATH state observed by `RuntimeManager`. -/
structure RuntimeState where
  /-- `str(self.runtime_dir)`, i.e. `Path.home() / ".awd" / "runtimes"` -/
  runtimeDir : String
  /-- `(runtime_dir / b).exists()` -/
  managedExists : String → Bool
  /-- `(runtime_dir / b).is_file()` -/
  managedIsFile : String → Bool
  /-- `shutil.which(b) is not None` -/
  whichFound : String → Bool
  /-- spec-level: `runtime_dir / b` is an existing executable regular file -/
  execFile : String → Bool
  /-- outcome of `subprocess.run([str(runtime_dir / b), "--version"], ...)` -/
  versionRun : String → Except Unit (Int × String)

/-- A state is well formed when its file-system bits are consistent: a
regular file exists, and an executable regular file is a regular file. -/
def wfState (st : RuntimeState) : Prop :=
  ∀ b, (st.managedIsFile b = true → st.managedExists b = true) ∧
    (st.execFile b = true → st.managedIsFile b = true)

/-- Python `runtime_name in self.supported_runtimes` /
`self.supported_runtimes[runtime_name]` combined. -/
def lookupRuntime (name : String) : Option RuntimeInfo :=
  (supported_runtimes.find? (fun p => p.1 == name)).map Prod.snd

/-- The checks performed by `is_runtime_available`, in order. -/
inductive Probe where
  /-- the managed-directory check `awd_binary.exists() and awd_binary.is_file()` -/
  | managedDir (b : String)
  /-- the fallback `shutil.which(binary_name)` search -/
  | pathSearch (b : String)
deriving DecidableEq, Repr

/-- `RuntimeManager.is_runtime_available(runtime_name)`, returning the
ordered list of checks performed together with the result. -/
def is_runtime_availableT (st : RuntimeState) (name : String) :
    List Probe × Bool :=
  match lookupRuntime name with
  | none => ([], false)
  | some info =>
    if st.managedExists info.binary && st.managedIsFile info.binary then
      ([Probe.managedDir info.binary], true)
    else
      ([Probe.managedDir info.binary, Probe.pathSearch info.binary],
       st.whichFound info.binary)

/-- Result of `RuntimeManager.is_runtime_available(runtime_name)`. -/
def is_runtime_available (st : RuntimeState) (name : String) : Bool :=
  (is_runtime_availableT st name).2

/-- `RuntimeManager.get_runtime_preference()`. -/
def get_runtime_preference : List String := ["codex", "llm"]

/-- The loop body of `get_available_runtime`. -/
def firstAvailable (st : RuntimeState) : List String → Option String
  | [] => none
  | r :: rs => if is_runtime_available st r then some r else firstAvailable st rs

/-- `RuntimeManager.get_available_runtime()`. -/
def get_available_runtime (st : RuntimeState) : Option String :=
  firstAvailable st get_runtime_preference

/-- One value of the dict returned by `list_runtimes`; `version = none`
models the `"version"` key being absent. -/
structure RuntimeStatus where
  description : String
  installed : Bool
  path : Option String
  version : Option String
deriving DecidableEq, Repr

/-- `RuntimeManager.list_runtimes()`: for each supported runtime,
`installed` is `binary_path.exists()`, `path` is `str(binary_path)` when it
exists and `None` otherwise, and `version` is the stripped stdout of
`binary_path --version` on a zero exit, absent on a nonzero exit, and
`"unknown"` when the subprocess raises. -/
def list_runtimes (st : RuntimeState) : List (String × RuntimeStatus) :=
  supported_runtimes.map (fun p =>
    let ex := st.managedExists p.2.binary
    (p.1,
     { description := p.2.description
       installed := ex
       path := if ex then some (st.runtimeDir ++ "/" ++ p.2.binary) else none
       version :=
         if ex then
           match st.versionRun p.2.binary with
           | .ok (rc, out) => if rc = 0 then some (pyStrip out) else none
           | .error _ => some "unknown"
         else none }))

/-! ## CLI commands (`src/awd_cli/cli.py`) -/

/-- The fields of a parsed `awd.yml` the modelled commands read:
`config.get('dependencies', {}).get('mcp', [])` and the `scripts` table
(`scripts? = none` when the `scripts` key is absent). -/
structure Manifest where
  mcpDeps : List String
  scripts? : Option (List (String × String))
deriving DecidableEq, Repr

/-- Per-dependency report line of the `install` loop. -/
inductive InstallEvent where
  /-- `✅ {dep} installed` (result truthy with truthy `success`) -/
  | installed (dep : String)
  /-- warning `{dep} installation may have issues` (falsy result) -/
  | mayHaveIssues (dep : String)
  /-- warning `Failed to install {dep}: ...` (`install_package` raised) -/
  | failed (dep : String)
deriving DecidableEq, Repr

/-- The report line the loop emits for one dependency, given the outcome of
`install_package('vscode', dep)` (`.ok b` = returned, with `b` the
truthiness of `result and result.get('success')`; `.error` = raised). -/
def installEventFor (outcome : String → Except Unit Bool) (dep : String) :
    InstallEvent :=
  match outcome dep with
  | .ok true => InstallEvent.installed dep
  | .ok false => InstallEvent.mayHaveIssues dep
  | .error _ => InstallEvent.failed dep

/-- The `for dep in mcp_deps` loop of the `install` command: the inner
`try/except` turns a raise into a warning and continues. -/
def installLoop (outcome : String → Except Unit Bool) :
    List String → List InstallEvent
  | [] => []
  | d :: ds => installEventFor outcome d :: installLoop outcome ds

/-- Outcome of one `install` invocation: the per-dependency report lines
and the process exit status. -/
structure InstallReport where
  events : List InstallEvent
  exit : Nat
deriving DecidableEq, Repr

/-- The `install` command.  `awdYml = none` models a missing `awd.yml`
(exit 1); `some (.error ())` models the read/parse raising (caught by the
outer `except`, exit 1); `importOk = false` models the `ImportError`
fallback branch, which installs nothing and returns normally.  An empty
dependency list returns early.  The loop never raises, so the command ends
at `sys.exit`-free normal return: exit 0. -/
def installCommand (awdYml : Option (Except Unit Manifest)) (importOk : Bool)
    (outcome : String → Except Unit Bool) : InstallReport :=
  match awdYml with
  | none => { events := [], exit := 1 }
  | some (.error _) => { events := [], exit := 1 }
  | some (.ok cfg) =>
    if cfg.mcpDeps.isEmpty then { events := [], exit := 0 }
    else if importOk then
      { events := installLoop outcome cfg.mcpDeps, exit := 0 }
    else { events := [], exit := 0 }

/-- `_get_default_script()`: `'start'` when the loaded config is truthy and
has a `scripts` table containing `'start'`, else `None`. -/
def getDefaultScript (cfg : Option Manifest) : Option String :=
  match cfg with
  | some c =>
    match c.scripts? with
    | some scr => if (scr.lookup "start").isSome then some "start" else none
    | none => none
  | none => none

/-- `_list_available_scripts()`. -/
def listAvailableScripts (cfg : Option Manifest) : List (String × String) :=
  match cfg with
  | some c => c.scripts?.getD []
  | none => []

/-- Python dict insertion `d[k] = v`: replace in place, else append. -/
def dictInsert : List (String × String) → String → String → List (String × String)
  | [], k, v => [(k, v)]
  | (a, b) :: rest, k, v =>
    if a = k then (a, v) :: rest else (a, b) :: dictInsert rest k v

/-- The `for p in param` parameter-parsing loop of `run`/`preview`:
tokens with `'='` are split at the first `'='` and stored, others skipped. -/
def parseLoop : List String → List (String × String) → List (String × String)
  | [], acc => acc
  | t :: ts, acc =>
    match splitAtFirstEq t.data with
    | some (a, b) => parseLoop ts (dictInsert acc (String.mk a) (String.mk b))
    | none => parseLoop ts acc

/-- The parameter dict built from the `--param` tokens. -/
def parseParamTokens (tokens : List String) : List (String × String) :=
  parseLoop tokens []

/-- `if not script_name: script_name = _get_default_script()` — the name
the `run` command proceeds with, `none` when resolution fails. -/
def resolvedName (scriptName? : Option String) (cfg : Option Manifest) :
    Option String :=
  match scriptName? with
  | none => getDefaultScript cfg
  | some s => if s.isEmpty then getDefaultScript cfg else some s

/-- Outcome of one `run` invocation: the `ScriptRunner.run_script` call if
one was made (script name and parameter dict), the script table shown on a
failed resolution, and the process exit status. -/
structure RunReport where
  invoked : Option (String × List (String × String))
  shownScripts : Option (List (String × String))
  exit : Nat
deriving DecidableEq, Repr

/-- The `run` command.  On a failed name resolution it lists the available
scripts and exits 1 without creating a `ScriptRunner`.  `importOk = false`
models the `ImportError` fallback (nothing invoked, normal return);
`runOutcome name params` is `ScriptRunner.run_script(name, params)` with
`.error` for a raise (caught: exit 1). -/
def runCommand (scriptName? : Option String) (cfg : Option Manifest)
    (tokens : List String) (importOk : Bool)
    (runOutcome : String → List (String × String) → Except Unit Bool) :
    RunReport :=
  match resolvedName scriptName? cfg with
  | none =>
    { invoked := none, shownScripts := some (listAvailableScripts cfg), exit := 1 }
  | some name =>
    let params := parseParamTokens tokens
    if importOk then
      { invoked := some (name, params)
        shownScripts := none
        exit :=
          match runOutcome name params with
          | .ok true => 0
          | .ok false => 1
          | .error _ => 1 }
    else { invoked := none, shownScripts := none, exit := 0 }

/-! ## Concrete states used by witnesses and counterexamples -/

/-- Install outcomes where dependency `"b"` raises and the rest succeed. -/
def outcomeB : String → Except Unit Bool :=
  fun d => if d = "b" then .error () else .ok true

/-- A manifest declaring the batch `["a", "b", "c"]`. -/
def cfgABC : Manifest := { mcpDeps := ["a", "b", "c"], scripts? := none }

/-- A manifest whose script table has no `start` entry. -/
def cfgNoStart : Manifest := { mcpDeps := [], scripts? := some [("build", "make")] }

/-- A manifest whose script table has a `start` entry. -/
def cfgStart : Manifest :=
  { mcpDeps := [], scripts? := some [("start", "codex run main.prompt.md")] }

/-- A `run_script` outcome that always succeeds. -/
def runOk : String → List (String × String) → Except Unit Bool :=
  fun _ _ => .ok true

/-- Runtime state: every binary is a managed executable file and on PATH. -/
def stAll : RuntimeState :=
  { runtimeDir := "/home/user/.awd/runtimes"
    managedExists := fun _ => true
    managedIsFile := fun _ => true
    whichFound := fun _ => true
    execFile := fun _ => true
    versionRun := fun _ => .ok (0, "1.0.0") }

/-- Runtime state: the managed path of every binary is a directory (it
exists but is not a regular file) and nothing is on PATH. -/
def stDirC : RuntimeState :=
  { runtimeDir := "/home/user/.awd/runtimes"
    managedExists := fun _ => true
    managedIsFile := fun _ => false
    whichFound := fun _ => false
    execFile := fun _ => false
    versionRun := fun _ => .error () }

/-- Runtime state: no managed install, but every binary is on the system
PATH. -/
def stPathOnly : RuntimeState :=
  { runtimeDir := "/home/user/.awd/runtimes"
    managedExists := fun _ => false
    managedIsFile := fun _ => false
    whichFound := fun _ => true
    execFile := fun _ => false
    versionRun := fun _ => .error () }

/-- The `supported_runtimes` entry for `codex`. -/
def codexInfo : RuntimeInfo :=
  { script := "setup-codex.sh"
    description := "OpenAI Codex CLI with GitHub Models support"
    binary := "codex" }

/-- The `supported_runtimes` entry for `llm`. -/
def llmInfo : RuntimeInfo :=
  { script := "setup-llm.sh"
    description := "Simon Willison's LLM library with multiple providers"
    binary := "llm" }

/-- The status `list_runtimes` reports for `codex` in state `stDirC`. -/
def statusDirCodex : RuntimeStatus :=
  { description := "OpenAI Codex CLI with GitHub Models support"
    installed := true
    path := some "/home/user/.awd/runtimes/codex"
    version := some "unknown" }

/-- A server record named `alpha`. -/
def srvAlpha : ServerRecord :=
  { sid := "id-alpha", name? := some "alpha", descr? := some "First test server" }

/-- A server record named `beta`. -/
def srvBeta : ServerRecord :=
  { sid := "id-beta", name? := some "beta", descr? := some "Second entry" }

/-- Registry state whose listing holds `alpha` and `beta` and whose detail
lookups all fail. -/
def regStErr : RegistryState :=
  { listPage := fun _ _ => .ok ([srvAlpha, srvBeta], none)
    infoOf := fun _ => .error () }

/-- Registry state whose listing holds `alpha` and `beta` and whose detail
lookups succeed for their ids. -/
def regStOk : RegistryState :=
  { listPage := fun _ _ => .ok ([srvAlpha, srvBeta], none)
    infoOf := fun sid =>
      if sid = "id-alpha" then .ok srvAlpha
      else if sid = "id-beta" then .ok srvBeta
      else .error () }

/-! ## Theorems -/

/-- Claim C4: `get_available_runtime()` returns the first runtime name in
the fixed preference order `["codex", "llm"]` for which
`is_runtime_available` is true, and `none` when neither is available; in
particular, whenever both are available it returns `"codex"`. -/
theorem c4_get_available_runtime_preference (st : RuntimeState) :
    get_available_runtime st =
      get_runtime_preference.find? (fun r => is_runtime_available st r)
    ∧ (is_runtime_available st "codex" = true →
        get_available_runtime st = some "codex")
    ∧ (is_runtime_available st "codex" = false →
        is_runtime_available st "llm" = true →
        get_available_runtime st = some "llm")
    ∧ (is_runtime_available st "codex" = false →
        is_runtime_available st "llm" = false →
        get_available_runtime st = none) := by
  rcases hC : is_runtime_available st "codex" <;>
    rcases hL : is_runtime_available st "llm" <;>
    simp [get_available_runtime, get_runtime_preference, firstAvailable,
      List.find?, hC, hL]

/-- Witness for C4: with both runtimes available, `codex` is selected. -/
theorem c4_witness : get_available_runtime stAll = some "codex" :=
  (c4_get_available_runtime_preference stAll).2.1 rfl

/-- Claim C6: `is_runtime_available` is true exactly when the binary is a
regular file in the managed directory or is found on the PATH; the managed
check comes first; the PATH search runs only when the managed check fails;
an unsupported name yields false with no check at all. -/
theorem c6_is_runtime_available_characterization (st : RuntimeState) (name : String) :
    (lookupRuntime name = none ↔ (name ≠ "codex" ∧ name ≠ "llm"))
    ∧ (∀ info, lookupRuntime name = some info →
        ((is_runtime_available st name = true) ↔
          ((st.managedExists info.binary = true ∧ st.managedIsFile info.binary = true)
            ∨ st.whichFound info.binary = true))
        ∧ (is_runtime_availableT st name).1.head? = some (Probe.managedDir info.binary)
        ∧ ((Probe.pathSearch info.binary ∈ (is_runtime_availableT st name).1) ↔
            ¬(st.managedExists info.binary = true ∧ st.managedIsFile info.binary = true)))
    ∧ (lookupRuntime name = none →
        is_runtime_available st name = false ∧ (is_runtime_availableT st name).1 = []) := by
  refine ⟨?_, ?_, ?_⟩
  · constructor
    · intro h
      constructor <;> rintro rfl <;>
        simp [lookupRuntime, supported_runtimes, List.find?] at h
    · rintro ⟨h1, h2⟩
      have hb1 : ("codex" == name) = false := beq_eq_false_iff_ne.mpr (Ne.symm h1)
      have hb2 : ("llm" == name) = false := beq_eq_false_iff_ne.mpr (Ne.symm h2)
      simp [lookupRuntime, supported_runtimes, List.find?, hb1, hb2]
  · intro info hinfo
    unfold is_runtime_available is_runtime_availableT
    rw [hinfo]
    by_cases hm : st.managedExists info.binary = true ∧ st.managedIsFile info.binary = true
    · simp [hm.1, hm.2]
    · rcases hE : st.managedExists info.binary <;>
        rcases hF : st.managedIsFile info.binary <;>
        simp_all
  · intro h
    unfold is_runtime_available is_runtime_availableT
    rw [h]
    exact ⟨rfl, rfl⟩

/-- Witness for C6: `codex` present only on the PATH is available. -/
theorem c6_witness : is_runtime_available stPathOnly "codex" = true :=
  (((c6_is_runtime_available_characterization stPathOnly "codex").2.1
    codexInfo rfl).1).mpr (Or.inr rfl)

/-- `splitAtFirstEq` fails exactly on tokens with no `'='` (the `'=' in p`
test). -/
theorem splitAtFirstEq_eq_none (cs : List Char) :
    splitAtFirstEq cs = none ↔ '=' ∉ cs := by
  induction cs with
  | nil => simp [splitAtFirstEq]
  | cons c cs ih =>
    by_cases hc : c = '='
    · subst hc; simp [splitAtFirstEq]
    · rcases h : splitAtFirstEq cs with _ | p <;>
        simp [splitAtFirstEq, hc, h, Ne.symm hc, ← ih, h]

/-- `splitAtFirstEq` splits `name=value` at the first `'='` when the name
holds none. -/
theorem splitAtFirstEq_no_eq (nl vl : List Char) (h : '=' ∉ nl) :
    splitAtFirstEq (nl ++ '=' :: vl) = some (nl, vl) := by
  induction nl with
  | nil => simp [splitAtFirstEq]
  | cons c cs ih =>
    have hc : ¬(c = '=') := fun e => h (e ▸ List.mem_cons_self c cs)
    simp [splitAtFirstEq, hc, ih (fun hm => h (List.mem_cons_of_mem c hm))]

/-- Looking up a key just written by `dictInsert` yields the new value. -/
theorem lookup_dictInsert (m : List (String × String)) (k v : String) :
    (dictInsert m k v).lookup k = some v := by
  induction m with
  | nil => simp [dictInsert, List.lookup]
  | cons p rest ih =>
    rcases p with ⟨a, b⟩
    by_cases hak : a = k
    · subst hak; simp [dictInsert, List.lookup]
    · have hb : (k == a) = false := beq_eq_false_iff_ne.mpr (Ne.symm hak)
      simp [dictInsert, hak, List.lookup, hb, ih]

/-- The parameter loop processes a concatenation left to right. -/
theorem parseLoop_append (ts₁ ts₂ : List String) (acc : List (String × String)) :
    parseLoop (ts₁ ++ ts₂) acc = parseLoop ts₂ (parseLoop ts₁ acc) := by
  induction ts₁ generalizing acc with
  | nil => simp [parseLoop]
  | cons t ts ih =>
    rcases h : splitAtFirstEq t.data with _ | ⟨a, b⟩ <;>
      simp [parseLoop, h, ih]

/-- Claim C8: a `--param` token containing `'='` is split at its first
`'='` into name and value (the value may contain further `'='`), a token
without `'='` is silently ignored, and a later token with the same name
overwrites an earlier one in the resulting parameter map. -/
theorem c8_param_token_parsing (ts₁ ts₂ : List String) (t n v : String) :
    ('=' ∉ t.data →
      parseParamTokens (ts₁ ++ t :: ts₂) = parseParamTokens (ts₁ ++ ts₂))
    ∧ ('=' ∉ n.data →
      (parseParamTokens (ts₁ ++ [n ++ "=" ++ v])).lookup n = some v) := by
  constructor
  · intro h
    have hn : splitAtFirstEq t.data = none := (splitAtFirstEq_eq_none t.data).mpr h
    unfold parseParamTokens
    rw [parseLoop_append, parseLoop_append]
    simp [parseLoop, hn]
  · intro h
    have hd : (n ++ "=" ++ v).data = n.data ++ '=' :: v.data := by
      simp [String.data_append]
    have he : (⟨n.data⟩ : String) = n := rfl
    unfold parseParamTokens
    rw [parseLoop_append]
    simp [parseLoop, hd, splitAtFirstEq_no_eq n.data v.data h, he,
      lookup_dictInsert]

/-- Witness for C8: `a=1` then a bare token then `a=2` leaves `a ↦ 2`. -/
theorem c8_witness :
    (parseParamTokens (["a=1", "junk"] ++ ["a" ++ "=" ++ "2"])).lookup "a"
      = some "2" :=
  (c8_param_token_parsing ["a=1", "junk"] [] "junk" "a" "2").2 (by decide)

/-- The name scan finds nothing when every name-matched server's detail
lookup raises (or no server matches at all). -/
theorem scanByName_none (st : RegistryState) (ref : String) (l : List ServerRecord)
    (h : ∀ s ∈ l, s.name? = some ref → st.infoOf s.sid = .error ()) :
    (scanByName st ref l).2 = none := by
  induction l with
  | nil => rfl
  | cons s rest ih =>
    have ih' := ih (fun x hx hxn => h x (List.mem_cons_of_mem s hx) hxn)
    by_cases hn : s.name? = some ref
    · have herr := h s (List.mem_cons_self s rest) hn
      simp [scanByName, hn, herr, ih']
    · simp [scanByName, hn, ih']

/-- Strategy 2 always opens with the `list_servers()` call. -/
theorem namePhase_head (st : RegistryState) (ref : String) :
    (namePhase st ref).1.head? = some RegAction.listCall := by
  unfold namePhase list_servers
  cases h : st.listPage 100 none with
  | error e => simp
  | ok p => simp

/-- Claim C2: `find_server_by_reference` attempts the direct by-identifier
lookup first exactly when the reference is 36 characters long with exactly
four hyphens (regardless of what the registry holds); any other reference
goes straight to the exact-name scan over the full listing; and it returns
`none` when neither strategy yields a match. -/
theorem c2_find_server_reference_dispatch (st : RegistryState) (ref : String) :
    (uuidLike ref = true ↔ (ref.length = 36 ∧ ref.data.count '-' = 4))
    ∧ ((find_server_by_reference st ref).1.head? = some (RegAction.direct ref) ↔
        uuidLike ref = true)
    ∧ (uuidLike ref = false →
        (find_server_by_reference st ref).1.head? = some RegAction.listCall)
    ∧ (∀ l cur, st.listPage 100 none = .ok (l, cur) →
        (uuidLike ref = true → st.infoOf ref = .error ()) →
        (∀ s ∈ l, s.name? = some ref → st.infoOf s.sid = .error ()) →
        (find_server_by_reference st ref).2 = .ok none) := by
  refine ⟨?_, ?_, ?_, ?_⟩
  · simp [uuidLike]
  · unfold find_server_by_reference
    cases huuid : uuidLike ref with
    | true =>
      cases hr : st.infoOf ref with
      | ok v => simp
      | error e => simp
    | false => simp [namePhase_head st ref]
  · intro huuid
    unfold find_server_by_reference
    rw [huuid]
    simp [namePhase_head st ref]
  · intro l cur hl huu hall
    have hscan : (scanByName st ref l).2 = none := scanByName_none st ref l hall
    have hnp : (namePhase st ref).2 = .ok none := by
      unfold namePhase list_servers
      rw [hl]
      simp [hscan]
    unfold find_server_by_reference
    cases huuid : uuidLike ref with
    | true => rw [huu huuid]; simpa using hnp
    | false => simpa using hnp

/-- Witness for C2: a non-UUID-shaped reference matched by no server name
yields `ok none`. -/
theorem c2_witness : (find_server_by_reference regStErr "gamma").2 = .ok none :=
  (c2_find_server_reference_dispatch regStErr "gamma").2.2.2
    [srvAlpha, srvBeta] none rfl (fun _ => rfl) (fun _ _ _ => rfl)

/-- Claim C9: an individual detail-lookup failure never escapes
`find_server_by_reference`: a raised direct lookup falls through to the
name scan, a raised detail fetch for a name-matched server skips that
server, and the result is an error only when the full listing call itself
failed (and is always `ok` when the listing succeeded). -/
theorem c9_find_server_error_isolation (st : RegistryState) (ref : String) :
    ((find_server_by_reference st ref).2 = .error () →
      st.listPage 100 none = .error ())
    ∧ (uuidLike ref = true → st.infoOf ref = .error () →
        (find_server_by_reference st ref).2 = (namePhase st ref).2)
    ∧ (∀ s rest, s.name? = some ref → st.infoOf s.sid = .error () →
        (scanByName st ref (s :: rest)).2 = (scanByName st ref rest).2)
    ∧ (∀ l cur, st.listPage 100 none = .ok (l, cur) →
        ∃ r, (find_server_by_reference st ref).2 = .ok r) := by
  have hnp2 : ∀ (h : (namePhase st ref).2 = .error ()),
      st.listPage 100 none = .error () := by
    intro h
    unfold namePhase list_servers at h
    cases hl : st.listPage 100 none with
    | error e => cases e; rfl
    | ok p => rw [hl] at h; simp at h
  refine ⟨?_, ?_, ?_, ?_⟩
  · intro h
    unfold find_server_by_reference at h
    cases huuid : uuidLike ref with
    | true =>
      rw [huuid] at h
      cases hr : st.infoOf ref with
      | ok v => rw [hr] at h; simp at h
      | error e => rw [hr] at h; simp at h; exact hnp2 h
    | false =>
      rw [huuid] at h
      simp at h
      exact hnp2 h
  · intro huuid herr
    unfold find_server_by_reference
    rw [huuid, herr]
    simp
  · intro s rest hn herr
    simp [scanByName, hn, herr]
  · intro l cur hl
    have hnp : ∃ r, (namePhase st ref).2 = .ok r := by
      unfold namePhase list_servers
      rw [hl]
      exact ⟨_, rfl⟩
    unfold find_server_by_reference
    cases huuid : uuidLike ref with
    | true =>
      cases hr : st.infoOf ref with
      | ok v => exact ⟨some v, rfl⟩
      | error e => simpa using hnp
    | false => simpa using hnp

/-- Witness for C9: with every detail lookup raising, a UUID-shaped
reference still resolves through the name scan instead of propagating the
raise. -/
theorem c9_witness :
    (find_server_by_reference regStErr "12345678-1234-1234-1234-123456789012").2 = (namePhase regStErr "12345678-1234-1234-1234-123456789012").2 :=
  (c9_find_server_error_isolation regStErr
    "12345678-1234-1234-1234-123456789012").2.1 (by decide) rfl

/-- `startsList n h` holds exactly when `n` heads `h`. -/
theorem startsList_iff (n h : List Char) :
    startsList n h = true ↔ ∃ r, h = n ++ r := by
  induction n generalizing h with
  | nil => simp [startsList]
  | cons a as ih =>
    cases h with
    | nil => simp [startsList]
    | cons b bs =>
      simp only [startsList, Bool.and_eq_true, beq_iff_eq, ih, List.cons_append,
        List.cons.injEq]
      constructor
      · rintro ⟨rfl, r, rfl⟩
        exact ⟨r, rfl, rfl⟩
      · rintro ⟨r, rfl, hr⟩
        exact ⟨rfl, r, hr⟩

/-- `containsSub n h` holds exactly when `n` occurs inside `h`: the
correctness of the model of Python substring containment. -/
theorem containsSub_iff (n h : List Char) :
    containsSub n h = true ↔ ∃ l r, h = l ++ n ++ r := by
  induction h with
  | nil => cases n <;> simp [containsSub]
  | cons c cs ih =>
    simp only [containsSub, Bool.or_eq_true, startsList_iff, ih]
    constructor
    · rintro (⟨r, hr⟩ | ⟨l, r, rfl⟩)
      · exact ⟨[], r, by simpa using hr⟩
      · exact ⟨c :: l, r, rfl⟩
    · rintro ⟨l, r, he⟩
      cases l with
      | nil => exact Or.inl ⟨r, by simpa using he⟩
      | cons x xs =>
        simp only [List.cons_append, List.cons.injEq, List.append_assoc] at he
        exact Or.inr ⟨xs, r, by simpa [List.append_assoc] using he.2⟩

/-- Claim C5: `search_servers(query)` returns exactly the servers of one
unpaginated `list_servers` call whose name or description contains the
query as a case-insensitive substring, keeping the listing's order; the
empty query returns the entire listing; and the result depends only on the
single page `list_servers()` returns. -/
theorem c5_search_servers_filter (st : RegistryState) (q : String) :
    (∀ l cur, st.listPage 100 none = .ok (l, cur) →
      search_servers st q = .ok (l.filter (matchesQuery q))
      ∧ (l.filter (matchesQuery q)).Sublist l
      ∧ (∀ s, s ∈ l.filter (matchesQuery q) ↔ s ∈ l ∧
          ((∃ a b, (pyLower (s.name?.getD "")).data = a ++ (pyLower q).data ++ b)
           ∨ ∃ a b, (pyLower (s.descr?.getD "")).data = a ++ (pyLower q).data ++ b))
      ∧ (q = "" → search_servers st q = .ok l))
    ∧ (∀ st' : RegistryState, st.listPage 100 none = st'.listPage 100 none →
        search_servers st q = search_servers st' q) := by
  constructor
  · intro l cur hl
    refine ⟨?_, List.filter_sublist l, ?_, ?_⟩
    · unfold search_servers list_servers
      rw [hl]
    · intro s
      simp [List.mem_filter, matchesQuery, pyIn, containsSub_iff]
    · intro hq
      subst hq
      have hc : ∀ hay : String, pyIn (pyLower "") hay = true := by
        intro hay
        exact (containsSub_iff _ _).mpr ⟨[], hay.data, by simp [pyLower]⟩
      unfold search_servers list_servers
      rw [hl]
      have hfil : l.filter (matchesQuery "") = l :=
        List.filter_eq_self.mpr (fun s _ => by simp [matchesQuery, hc])
      show Except.ok (l.filter (matchesQuery "")) = Except.ok l
      rw [hfil]
  · intro st' h
    unfold search_servers list_servers
    rw [h]

/-- Witness for C5: the empty query returns the whole listing. -/
theorem c5_witness : search_servers regStOk "" = .ok [srvAlpha, srvBeta] :=
  (((c5_search_servers_filter regStOk "").1 [srvAlpha, srvBeta] none rfl).2.2.2) rfl

/-- Claim C3: with no script name given, `run` fails when the manifest has
no `start` script (or no scripts table, or no manifest): it shows the
available-script list, exits 1, and never reaches the `ScriptRunner`
invocation; when a `start` entry exists it becomes the default script
name. -/
theorem c3_run_default_script (cfg : Option Manifest) (tokens : List String)
    (importOk : Bool)
    (runOutcome : String → List (String × String) → Except Unit Bool) :
    (getDefaultScript cfg = none ↔
      ∀ m, cfg = some m → ∀ scr, m.scripts? = some scr → scr.lookup "start" = none)
    ∧ (getDefaultScript cfg = none →
        (runCommand none cfg tokens importOk runOutcome).invoked = none
        ∧ (runCommand none cfg tokens importOk runOutcome).shownScripts
            = some (listAvailableScripts cfg)
        ∧ (runCommand none cfg tokens importOk runOutcome).exit = 1)
    ∧ (∀ m scr, cfg = some m → m.scripts? = some scr →
        (scr.lookup "start").isSome = true → importOk = true →
        (runCommand none cfg tokens importOk runOutcome).invoked
          = some ("start", parseParamTokens tokens)) := by
  refine ⟨?_, ?_, ?_⟩
  · cases cfg with
    | none => simp [getDefaultScript]
    | some m =>
      rcases hs : m.scripts? with _ | scr
      · simp [getDefaultScript, hs]
      · rcases hlk : scr.lookup "start" with _ | cmd
        · constructor
          · rintro _ m' hm' scr' hs'
            obtain rfl := Option.some.inj hm'
            rw [hs] at hs'
            obtain rfl := Option.some.inj hs'
            exact hlk
          · intro _
            simp [getDefaultScript, hs, hlk]
        · constructor
          · intro h
            exfalso
            simp [getDefaultScript, hs, hlk] at h
          · intro h
            exfalso
            have hnone := h m rfl scr hs
            rw [hlk] at hnone
            exact Option.noConfusion hnone
  · intro h
    simp [runCommand, resolvedName, h]
  · intro m scr hm hs hlk himp
    subst hm
    subst himp
    simp [runCommand, resolvedName, getDefaultScript, hs, hlk]

/-- Witness for C3: a manifest whose scripts table lacks `start` makes
`run` fail, listing the scripts, without any `ScriptRunner` call. -/
theorem c3_witness :
    (runCommand none (some cfgNoStart) [] true runOk).invoked = none
    ∧ (runCommand none (some cfgNoStart) [] true runOk).shownScripts
        = some [("build", "make")]
    ∧ (runCommand none (some cfgNoStart) [] true runOk).exit = 1 := by
  have h := (c3_run_default_script (some cfgNoStart) [] true runOk).2.1 rfl
  exact ⟨h.1, h.2.1.trans rfl, h.2.2⟩

/-- The install loop emits exactly one report line per dependency, in
order, regardless of per-entry failures. -/
theorem installLoop_map (outcome : String → Except Unit Bool) (deps : List String) :
    installLoop outcome deps = deps.map (installEventFor outcome) := by
  induction deps with
  | nil => rfl
  | cons d ds ih => simp [installLoop, ih]

/-- Counterexample to C1 as stated: in the batch `["a", "b", "c"]` where
`b`'s install raises, the loop records the failure and continues through
`c`, but the command's exit status is 0 — not nonzero as claimed. -/
theorem c1_counterexample :
    (installCommand (some (.ok cfgABC)) true outcomeB).events
      = [InstallEvent.installed "a", InstallEvent.failed "b",
         InstallEvent.installed "c"]
    ∧ (installCommand (some (.ok cfgABC)) true outcomeB).exit = 0 := by
  constructor <;> rfl

/-- Claim C1 (amended): the install command attempts every dependency in
order even when an earlier one fails — one report line per entry, the loop
continuing past raises — but the exit status is 0 even when entries
failed; a nonzero exit arises only from failures outside the per-entry
loop, such as a missing or unreadable `awd.yml`. -/
theorem c1_install_attempts_all (cfg : Manifest) (importOk : Bool)
    (outcome : String → Except Unit Bool) (h : cfg.mcpDeps ≠ []) :
    (importOk = true →
      (installCommand (some (.ok cfg)) importOk outcome).events
        = cfg.mcpDeps.map (installEventFor outcome))
    ∧ (installCommand (some (.ok cfg)) importOk outcome).exit = 0
    ∧ (installCommand none importOk outcome).exit = 1
    ∧ (installCommand (some (.error ())) importOk outcome).exit = 1 := by
  have hne : cfg.mcpDeps.isEmpty = false := by
    rcases hd : cfg.mcpDeps with _ | ⟨x, xs⟩
    · exact absurd hd h
    · rfl
  refine ⟨?_, ?_, rfl, rfl⟩
  · intro himp
    subst himp
    simp [installCommand, hne, installLoop_map]
  · cases importOk <;> simp [installCommand, hne]

/-- Witness for C1 (amended): the `["a", "b", "c"]` batch with `b` raising
yields one report line per entry and exit status 0. -/
theorem c1_witness :
    (installCommand (some (.ok cfgABC)) true outcomeB).events
      = cfgABC.mcpDeps.map (installEventFor outcomeB)
    ∧ (installCommand (some (.ok cfgABC)) true outcomeB).exit = 0 := by
  have h := c1_install_attempts_all cfgABC true outcomeB (by decide)
  exact ⟨h.1 rfl, h.2.1⟩

/-- The entry `list_runtimes` produces for a supported runtime, in closed
form. -/
theorem list_runtimes_lookup (st : RuntimeState) (name : String)
    (info : RuntimeInfo) (hinfo : lookupRuntime name = some info) :
    (list_runtimes st).lookup name = some
      { description := info.description
        installed := st.managedExists info.binary
        path := if st.managedExists info.binary then
            some (st.runtimeDir ++ "/" ++ info.binary)
          else none
        version := if st.managedExists info.binary then
            match st.versionRun info.binary with
            | .ok (rc, out) => if rc = 0 then some (pyStrip out) else none
            | .error _ => some "unknown"
          else none } := by
  by_cases h1 : ("codex" == name) = true
  · have hn : name = "codex" := (beq_iff_eq.mp h1).symm
    subst hn
    have hi : info = codexInfo := by
      simpa [lookupRuntime, supported_runtimes, List.find?, codexInfo] using hinfo.symm
    subst hi
    rfl
  · by_cases h2 : ("llm" == name) = true
    · have hn : name = "llm" := (beq_iff_eq.mp h2).symm
      subst hn
      have hi : info = llmInfo := by
        simpa [lookupRuntime, supported_runtimes, List.find?, llmInfo, h1] using hinfo.symm
      subst hi
      have hl : (list_runtimes st).lookup "llm" =
          List.lookup "llm" (list_runtimes st) := rfl
      simp [list_runtimes, supported_runtimes, List.lookup, llmInfo]
    · exfalso
      simp [lookupRuntime, supported_runtimes, List.find?, h1, h2] at hinfo

/-- Counterexample to C7 as stated: in the well-formed state where the
managed `codex` path is a directory, `list_runtimes` reports `codex`
installed although the managed path is not an existing executable file. -/
theorem c7_counterexample :
    ¬ (∀ st : RuntimeState, wfState st → ∀ name info status,
        lookupRuntime name = some info →
        (list_runtimes st).lookup name = some status →
        status.installed = true → st.execFile info.binary = true) := by
  intro h
  have hwf : wfState stDirC := fun _ =>
    ⟨fun hf => Bool.noConfusion hf, fun hf => Bool.noConfusion hf⟩
  have hx := h stDirC hwf "codex" codexInfo statusDirCodex rfl (by decide) rfl
  exact Bool.noConfusion hx

/-- Claim C7 (amended): in every state and for every supported runtime,
the record `list_runtimes` reports has `installed` equal to the bare
existence of the managed path (which may be a directory or a
non-executable file); `installed == true` implies the reported path is
`str(runtime_dir / binary)`, and `installed == false` implies the path
field is none. -/
theorem c7_list_runtimes_invariant (st : RuntimeState) (name : String)
    (info : RuntimeInfo) (hinfo : lookupRuntime name = some info) :
    ∀ status, (list_runtimes st).lookup name = some status →
      status.installed = st.managedExists info.binary
      ∧ (status.installed = true →
          status.path = some (st.runtimeDir ++ "/" ++ info.binary))
      ∧ (status.installed = false → status.path = none) := by
  intro status hst
  rw [list_runtimes_lookup st name info hinfo] at hst
  have hs := Option.some.inj hst
  subst hs
  cases hex : st.managedExists info.binary <;> simp [hex]

/-- Witness for C7 (amended): the directory-at-managed-path state reports
`codex` installed with the managed path. -/
theorem c7_witness :
    statusDirCodex.installed = stDirC.managedExists codexInfo.binary
    ∧ (statusDirCodex.installed = true →
        statusDirCodex.path = some (stDirC.runtimeDir ++ "/" ++ codexInfo.binary))
    ∧ (statusDirCodex.installed = false → statusDirCodex.path = none) :=
  c7_list_runtimes_invariant stDirC "codex" codexInfo rfl statusDirCodex (by decide)

/-- Counterexample to C10 as stated: in the well-formed state where the
managed `codex` path is a directory and nothing is on the PATH,
`list_runtimes` reports `codex` installed yet `is_runtime_available`
returns false. -/
theorem c10_counterexample :
    ¬ (∀ st : RuntimeState, wfState st → ∀ name status,
        (list_runtimes st).lookup name = some status →
        status.installed = true → is_runtime_available st name = true) := by
  intro h
  have hwf : wfState stDirC := fun _ =>
    ⟨fun hf => Bool.noConfusion hf, fun hf => Bool.noConfusion hf⟩
  have hx := h stDirC hwf "codex" statusDirCodex (by decide) rfl
  exact Bool.noConfusion hx

/-- Claim C10 (amended): `list_runtimes` reporting a supported runtime as
installed implies `is_runtime_available` whenever the managed path is a
regular file; and not conversely: in a well-formed state with the binary
only on the system PATH, `list_runtimes` reports it not installed while
`is_runtime_available` — and hence `get_available_runtime` — still selects
it. -/
theorem c10_list_vs_available (st : RuntimeState) :
    (∀ name info status, lookupRuntime name = some info →
        (list_runtimes st).lookup name = some status →
        status.installed = true → st.managedIsFile info.binary = true →
        is_runtime_available st name = true)
    ∧ (∃ st' : RuntimeState, wfState st'
        ∧ (∃ status, (list_runtimes st').lookup "codex" = some status
            ∧ status.installed = false)
        ∧ is_runtime_available st' "codex" = true
        ∧ get_available_runtime st' = some "codex") := by
  constructor
  · intro name info status hinfo hlk hin hfile
    rw [list_runtimes_lookup st name info hinfo] at hlk
    have hs := Option.some.inj hlk
    subst hs
    simp only at hin
    unfold is_runtime_available is_runtime_availableT
    rw [hinfo]
    simp [hin, hfile]
  · refine ⟨stPathOnly,
      fun _ => ⟨fun hf => Bool.noConfusion hf, fun hf => Bool.noConfusion hf⟩,
      ⟨{ description := "OpenAI Codex CLI with GitHub Models support"
         installed := false
         path := none
         version := none }, by decide, rfl⟩, rfl, rfl⟩

/-- Witness for C10 (amended): with a managed regular file for `codex`,
the installed report implies availability. -/
theorem c10_witness : is_runtime_available stAll "codex" = true :=
  (c10_list_vs_available stAll).1 "codex" codexInfo
    { description := "OpenAI Codex CLI with GitHub Models support"
      installed := true
      path := some "/home/user/.awd/runtimes/codex"
      version := some "1.0.0" } rfl (by decide) rfl rfl

end AwdCli
